import Mathlib

/-!
Shield: the agent's connection handler and the catalog's schema setup.

A shallow embedding of `agent/agent.go` (`Agent.handleConn`) and of
`db/schema.go` (`DB.Setup`, `DB.schemaVersion`, `DB.v1schema`).

`handleConn` talks to the SSH library through method calls.  The embedding
records every such call, in program order, as an `Event`; the function
`handleConn` returns the list of calls it makes together with the way the run
ends (it returns, or it waits forever on a Go channel).
-/

namespace Shield

/-! # agent/agent.go: definitions -/

namespace Agent

/-- The reason codes of `ssh.RejectionReason`. -/
inductive RejectionReason
  | Prohibited
  | ConnectionFailed
  | UnknownChannelType
  | ResourceShortage
  deriving DecidableEq, Repr

/-- An `*ssh.Request` as `handleConn` sees it: the fields `Type` (written
`type`, the capitalised word being reserved), `WantReply` and `Payload` (bytes
as naturals below 256). -/
structure Request where
  type : String
  WantReply : Bool
  Payload : List Nat
  deriving DecidableEq, Repr

/-- What `ParseRequest` returns on success: a value with a `Run(output)` method.
`Run` is a collaborator; its observable behaviour towards `handleConn` is the
sequence of strings it sends on `output`, whether it closes `output`, whether
the call returns at all, and the error it returns (`none` is Go's `nil`). -/
structure AgentRequest where
  chunks : List String
  closes : Bool
  returns : Bool
  err : Option String
  deriving DecidableEq, Repr

/-- An `ssh.NewChannel` taken from `chans`: its `ChannelType()` and what
`Accept()` yields, an error or the channel's request stream (the requests
received until that stream is closed). -/
structure NewChannel where
  ChannelType : String
  Accept : Except String (List Request)

/-- One call made by `handleConn`.  Channels are named by their position in
`chans`; requests and parsed requests by the receiver value itself. -/
inductive Event
  | printf (text : String)
  | reject (ch : Nat) (reason : RejectionReason) (message : String)
  | accept (ch : Nat)
  | acceptFailed (ch : Nat)
  | parseRequest (ch : Nat) (req : Request)
  | reply (ch : Nat) (req : Request) (ok : Bool) (payload : Option (List Nat))
  | run (ch : Nat) (r : AgentRequest)
  | write (ch : Nat) (s : String)
  | sendRequest (ch : Nat) (name : String) (wantReply : Bool) (payload : List Nat)
  | close (ch : Nat)
  | connClose
  deriving DecidableEq, Repr

/-- The channel an event belongs to, if any. -/
def Event.chan : Event → Option Nat
  | .printf _ => none
  | .reject ch _ _ => some ch
  | .accept ch => some ch
  | .acceptFailed ch => some ch
  | .parseRequest ch _ => some ch
  | .reply ch _ _ _ => some ch
  | .run ch _ => some ch
  | .write ch _ => some ch
  | .sendRequest ch _ _ _ => some ch
  | .close ch => some ch
  | .connClose => none

/-- How a run of `handleConn` ends. -/
inductive Outcome
  | returned
  | blocked
  deriving DecidableEq, Repr

/-- Lines 99 to 102: `rc := []byte{0, 0, 0, 0}; if err != nil { rc[0] = 1 }`. -/
def exitStatus (err : Option String) : List Nat :=
  let rc := [0, 0, 0, 0]
  if err ≠ none then rc.set 0 1 else rc

/-- Where the goroutine of `handleConn` stands between line 80 and line 104. -/
inductive MainPc
  | reply
  | spawn
  | callRun
  | inRun (todo : List String)
  | runReturn
  | waitDone
  | sendStatus
  | closeChannel
  | finished
  deriving DecidableEq, Repr

/-- Where the relay goroutine of lines 85 to 94 stands. -/
inductive RelayPc
  | notStarted
  | receive
  | fprintf (s : String)
  | closeDone
  | exited
  deriving DecidableEq, Repr

/-- State of the two goroutines: the program counters, whether `output` and
`done` are closed, and the calls made on the SSH channel so far. -/
structure ExecState where
  main : MainPc
  relay : RelayPc
  outputClosed : Bool
  doneClosed : Bool
  trace : List Event
  deriving DecidableEq, Repr

/-- The goroutine a scheduler may pick. -/
inductive Thread
  | main
  | relay
  deriving DecidableEq, Repr

/-- State at line 80, before `req.Reply(true, nil)`. -/
def execInit : ExecState :=
  { main := .reply, relay := .notStarted, outputClosed := false, doneClosed := false, trace := [] }

/-- One move of the chosen goroutine, `none` when it cannot move.
Main: line 80 replies; lines 83 to 94 make the channels and start the relay;
line 97 calls `Run`, which sends its strings one by one (a send on the
unbuffered `output` happens only while the relay waits at line 87, and hands
the string over), then closes `output` if it does, then returns if it does;
line 98 passes once `done` is closed; line 103 sends the status; line 104
closes the channel.
Relay: line 87 leaves the loop once `output` is closed; line 91 writes the
string it holds; line 93 closes `done`. -/
def step (ch : Nat) (req : Request) (r : AgentRequest) (s : ExecState) : Thread → Option ExecState
  | .main =>
    match s.main with
    | .reply => some { s with main := .spawn, trace := s.trace ++ [Event.reply ch req true none] }
    | .spawn => some { s with main := .callRun, relay := .receive }
    | .callRun => some { s with main := .inRun r.chunks, trace := s.trace ++ [Event.run ch r] }
    | .inRun (c :: todo) =>
      if s.relay = .receive then some { s with main := .inRun todo, relay := .fprintf c } else none
    | .inRun [] =>
      if r.closes then some { s with main := .runReturn, outputClosed := true }
      else some { s with main := .runReturn }
    | .runReturn => if r.returns then some { s with main := .waitDone } else none
    | .waitDone => if s.doneClosed then some { s with main := .sendStatus } else none
    | .sendStatus =>
      some { s with main := .closeChannel,
                    trace := s.trace ++ [Event.sendRequest ch "exit-status" false (exitStatus r.err)] }
    | .closeChannel => some { s with main := .finished, trace := s.trace ++ [Event.close ch] }
    | .finished => none
  | .relay =>
    match s.relay with
    | .notStarted => none
    | .receive => if s.outputClosed then some { s with relay := .closeDone } else none
    | .fprintf c => some { s with relay := .receive, trace := s.trace ++ [Event.write ch c] }
    | .closeDone => some { s with relay := .exited, doneClosed := true }
    | .exited => none

/-- The state after a schedule: the goroutines move in the order the schedule
names them; a goroutine that cannot move when named stays where it is. -/
def runSchedule (ch : Nat) (req : Request) (r : AgentRequest) : List Thread → ExecState → ExecState
  | [], s => s
  | t :: ts, s =>
    match step ch req r s t with
    | some s' => runSchedule ch req r ts s'
    | none => runSchedule ch req r ts s

/-- Runs the two goroutines until neither can move, or the fuel is spent: the
main goroutine moves when it can, the relay otherwise. -/
def drive (ch : Nat) (req : Request) (r : AgentRequest) : Nat → ExecState → ExecState
  | 0, s => s
  | fuel + 1, s =>
    match step ch req r s .main with
    | some s' => drive ch req r fuel s'
    | none =>
      match step ch req r s .relay with
      | some s' => drive ch req r fuel s'
      | none => s

/-- Number of moves that always suffices: two per string (hand-over and write)
and a constant for the rest. -/
def execFuel (r : AgentRequest) : Nat := 2 * r.chunks.length + 14

/-- Lines 80 to 104 for a parsed request `r`: the calls made, and whether the
loop body completes.  It does not when `Run` never returns or never closes
`output`, since `<-done` then waits forever. -/
def execRequest (ch : Nat) (req : Request) (r : AgentRequest) : List Event × Bool :=
  let s := drive ch req r (execFuel r) execInit
  (s.trace, decide (s.main = .finished))

/-- The body of the loop over `requests`, lines 66 to 104. -/
def handleRequest (ParseRequest : Request → Except String AgentRequest)
    (ch : Nat) (req : Request) : List Event × Bool :=
  if req.type ≠ "exec" then
    ([Event.printf ("rejecting non-exec channel request (type=" ++ req.type ++ ")\n"),
      Event.reply ch req false none], true)
  else
    match ParseRequest req with
    | .error e =>
      ([Event.parseRequest ch req, Event.printf (e ++ "\n"), Event.reply ch req false none], true)
    | .ok r =>
      let (es, fin) := execRequest ch req r
      (Event.parseRequest ch req :: es, fin)

/-- The loop `for req := range requests`, lines 65 to 105.  Nothing leaves the
loop early: after a request is served the next one is taken. -/
def handleRequests (ParseRequest : Request → Except String AgentRequest)
    (ch : Nat) : List Request → List Event × Bool
  | [] => ([], true)
  | req :: rest =>
    let (es, fin) := handleRequest ParseRequest ch req
    if fin then
      let (es', fin') := handleRequests ParseRequest ch rest
      (es ++ es', fin')
    else
      (es, false)

/-- The loop `for newChannel := range chans`, lines 50 to 106, for the channels
from position `ch` on.  `defers` is the stack of deferred calls, most recent
first; it runs when the function returns (line 60, or the end of `chans`). -/
def handleChannels (ParseRequest : Request → Except String AgentRequest) :
    Nat → List Event → List NewChannel → List Event × Outcome
  | _, defers, [] => (defers, .returned)
  | ch, defers, c :: rest =>
    if c.ChannelType ≠ "session" then
      let (es, o) := handleChannels ParseRequest (ch + 1) defers rest
      ([Event.printf ("rejecting unknown channel type: " ++ c.ChannelType ++ "\n"),
        Event.reject ch .UnknownChannelType "unknown channel type"] ++ es, o)
    else
      match c.Accept with
      | .error e =>
        ([Event.acceptFailed ch, Event.printf ("failed to accept channel: " ++ e ++ "\n")]
          ++ defers, .returned)
      | .ok requests =>
        let (es, fin) := handleRequests ParseRequest ch requests
        if fin then
          let (es', o) := handleChannels ParseRequest (ch + 1) (Event.close ch :: defers) rest
          (Event.accept ch :: es ++ es', o)
        else
          (Event.accept ch :: es, .blocked)

/-- The function `Agent.handleConn`: `defer conn.Close()` and the loop over `chans`.  The
parameter `reqs` is not used by the function. -/
def handleConn (ParseRequest : Request → Except String AgentRequest)
    (chans : List NewChannel) (_reqs : List Request) : List Event × Outcome :=
  handleChannels ParseRequest 0 [Event.connClose] chans

/-- The calls of lines 80 and 97: the affirmative reply and the call of `Run`. -/
def execHead (ch : Nat) (req : Request) (r : AgentRequest) : List Event :=
  [Event.reply ch req true none, Event.run ch r]

/-- The writes of the strings `l`, in order. -/
def writes (ch : Nat) (l : List String) : List Event := l.map (Event.write ch)

/-- The call of line 103. -/
def statusEvent (ch : Nat) (r : AgentRequest) : Event :=
  Event.sendRequest ch "exit-status" false (exitStatus r.err)

/-- The complete sequence of calls of lines 80 to 104. -/
def execFull (ch : Nat) (req : Request) (r : AgentRequest) : List Event :=
  execHead ch req r ++ writes ch r.chunks ++ [statusEvent ch r, Event.close ch]

/-- The relay while the strings `sent` have been handed over: it waits for the
next one and has written all of `sent`, or it holds the last one and has
written those before it. -/
def RelayAt (ch : Nat) (req : Request) (r : AgentRequest) (s : ExecState)
    (sent : List String) : Prop :=
  (s.relay = .receive ∧ s.trace = execHead ch req r ++ writes ch sent) ∨
  (∃ d c, sent = d ++ [c] ∧ s.relay = .fprintf c ∧ s.trace = execHead ch req r ++ writes ch d)

/-- The machine once `Run` has sent everything: the relay still writes or
waits, or it has seen `output` closed, or it has closed `done`. -/
def Draining (ch : Nat) (req : Request) (r : AgentRequest) (s : ExecState) : Prop :=
  s.outputClosed = r.closes ∧
  ((s.doneClosed = false ∧ RelayAt ch req r s r.chunks) ∨
   (r.closes = true ∧ s.doneClosed = false ∧ s.relay = .closeDone ∧
      s.trace = execHead ch req r ++ writes ch r.chunks) ∨
   (r.closes = true ∧ s.doneClosed = true ∧ s.relay = .exited ∧
      s.trace = execHead ch req r ++ writes ch r.chunks))

/-- The invariant of the machine: for every position of the main goroutine,
where the relay can be and which calls have been made. -/
def Inv (ch : Nat) (req : Request) (r : AgentRequest) (s : ExecState) : Prop :=
  match s.main with
  | .reply => s.relay = .notStarted ∧ s.outputClosed = false ∧ s.doneClosed = false ∧ s.trace = []
  | .spawn => s.relay = .notStarted ∧ s.outputClosed = false ∧ s.doneClosed = false ∧
      s.trace = [Event.reply ch req true none]
  | .callRun => s.relay = .receive ∧ s.outputClosed = false ∧ s.doneClosed = false ∧
      s.trace = [Event.reply ch req true none]
  | .inRun todo => s.outputClosed = false ∧ s.doneClosed = false ∧
      ∃ sent, r.chunks = sent ++ todo ∧ RelayAt ch req r s sent
  | .runReturn => Draining ch req r s
  | .waitDone => r.returns = true ∧ Draining ch req r s
  | .sendStatus => r.closes = true ∧ r.returns = true ∧ s.relay = .exited ∧
      s.trace = execHead ch req r ++ writes ch r.chunks
  | .closeChannel => r.closes = true ∧ r.returns = true ∧ s.relay = .exited ∧
      s.trace = execHead ch req r ++ writes ch r.chunks ++ [statusEvent ch r]
  | .finished => r.closes = true ∧ r.returns = true ∧ s.relay = .exited ∧
      s.trace = execFull ch req r

/-- A weight for the position of the main goroutine that every move of it
lowers, `n` being the number of strings `Run` sends.  Starting the relay
weighs five, so that it outweighs the relay's new position. -/
def mainSteps (n : Nat) : MainPc → Nat
  | .reply => n + 12
  | .spawn => n + 11
  | .callRun => n + 6
  | .inRun todo => todo.length + 5
  | .runReturn => 4
  | .waitDone => 3
  | .sendStatus => 2
  | .closeChannel => 1
  | .finished => 0

/-- Strings the main goroutine has not handed over yet. -/
def toSend (n : Nat) : MainPc → Nat
  | .reply => n
  | .spawn => n
  | .callRun => n
  | .inRun todo => todo.length
  | _ => 0

/-- Moves the relay still has to make once no string is left. -/
def relaySteps : RelayPc → Nat
  | .notStarted => 2
  | .receive => 2
  | .fprintf _ => 3
  | .closeDone => 1
  | .exited => 0

/-- A bound on the number of moves left; every move lowers it. -/
def movesLeft (r : AgentRequest) (s : ExecState) : Nat :=
  mainSteps r.chunks.length s.main + toSend r.chunks.length s.main + relaySteps s.relay

/-- A parsed request whose `Run` sends one line, closes `output` and returns `nil`. -/
def echoHello : AgentRequest :=
  { chunks := ["hello\n"], closes := true, returns := true, err := none }

/-- A parsed request whose `Run` sends some output, closes `output` and
returns an error. -/
def failingRun : AgentRequest :=
  { chunks := ["half"], closes := true, returns := true, err := some "exit status 2" }

/-- A parsed request whose `Run` returns without closing `output`. -/
def leakyRun : AgentRequest :=
  { chunks := ["x"], closes := false, returns := true, err := none }

/-- A parsed request whose `Run` sends one string and returns an error without
closing `output`. -/
def unclosedFailingRun : AgentRequest :=
  { chunks := ["x"], closes := false, returns := true, err := some "exit status 2" }

/-- A parser for the samples: payload `[1]` is `echoHello`, `[2]` is
`failingRun`, `[3]` is `leakyRun`, `[4]` is `unclosedFailingRun`, anything else
is malformed. -/
def sampleParse (req : Request) : Except String AgentRequest :=
  if req.Payload = [1] then .ok echoHello
  else if req.Payload = [2] then .ok failingRun
  else if req.Payload = [3] then .ok leakyRun
  else if req.Payload = [4] then .ok unclosedFailingRun
  else .error "malformed request"

/-- An exec request with the given payload. -/
def execReq (payload : List Nat) : Request :=
  { type := "exec", WantReply := true, Payload := payload }

/-- A request of another type. -/
def shellReq : Request :=
  { type := "shell", WantReply := true, Payload := [] }

/-- Whether a call is a `SendRequest`. -/
def Event.isSendRequest : Event → Bool
  | .sendRequest _ _ _ _ => true
  | _ => false

/-- An event of the request loop belongs to its channel or is a log line. -/
def Event.within (ch : Nat) (e : Event) : Prop := e.chan = some ch ∨ ∃ t, e = Event.printf t

/-- The calls one pass of the channel loop makes for the channel at position
`k`: the rejection, the failed accept, or the accept and the request loop. -/
def served (ParseRequest : Request → Except String AgentRequest) (k : Nat) (c : NewChannel) :
    List Event :=
  if c.ChannelType ≠ "session" then
    [Event.printf ("rejecting unknown channel type: " ++ c.ChannelType ++ "\n"),
      Event.reject k .UnknownChannelType "unknown channel type"]
  else
    match c.Accept with
    | .error msg =>
      [Event.acceptFailed k, Event.printf ("failed to accept channel: " ++ msg ++ "\n")]
    | .ok rs => Event.accept k :: (handleRequests ParseRequest k rs).1

/-- The calls of the passes for the channels `cs`, the first at position `k`. -/
def servedFrom (ParseRequest : Request → Except String AgentRequest) :
    Nat → List NewChannel → List Event
  | _, [] => []
  | k, c :: cs => served ParseRequest k c ++ servedFrom ParseRequest (k + 1) cs

/-- The deferred closes of the accepted channels among `cs`, the first at
position `k`, in the order they run: last accepted first. -/
def deferredCloses : Nat → List NewChannel → List Event
  | _, [] => []
  | k, c :: cs =>
    deferredCloses (k + 1) cs ++
      (if c.ChannelType = "session" then
        match c.Accept with
        | .ok _ => [Event.close k]
        | .error _ => []
       else [])

/-- A channel the loop gets past: of another kind, or a session channel whose
accept succeeds and whose exec requests that parse have a `Run` that closes
`output` and returns. -/
def Passable (ParseRequest : Request → Except String AgentRequest) (c : NewChannel) : Prop :=
  c.ChannelType = "session" →
    ∃ rs, c.Accept = .ok rs ∧
      ∀ q ∈ rs, q.type = "exec" → ∀ r, ParseRequest q = .ok r →
        r.closes = true ∧ r.returns = true

end Agent

/-! # db/schema.go: definitions -/

/-- A statement handed to `Exec` by `v1schema`: a `CREATE TABLE` with its
column definitions, or `INSERT INTO schema_info VALUES (version)`. -/
inductive Statement
  | createTable (name : String) (columns : List (String × String))
  | insertSchemaInfo (version : Int)
  deriving DecidableEq, Repr

/-- Modelled from the spec: the type `DB` and its methods `Query` and `Exec`
are not in the source (only their callers in `schema.go` are).  The catalog is
a relational store that records a version number: `schema_info` is `none`
when that table does not exist and otherwise its rows in the order they were
inserted, a row being the `version` cell (`none` for SQL `NULL`); `tables` are
the names of the other tables present; `executed` lists the statements handed
to `Exec` so far. -/
structure DB where
  schema_info : Option (List (Option Int))
  tables : List String
  executed : List Statement
  deriving DecidableEq, Repr

/-- Modelled from the spec: `db.Query` for the one query of `schema.go`,
`SELECT version FROM schema_info LIMIT 1`.  It fails when the table does not
exist and otherwise yields at most one row, the first one stored. -/
def DB.Query (db : DB) : Except String (List (Option Int)) :=
  match db.schema_info with
  | none => .error "no such table: schema_info"
  | some rows => .ok (rows.take 1)

/-- Modelled from the spec: `db.Exec`.  A `CREATE TABLE` creates the table if
it is absent and fails, changing nothing, if it is present; the insert appends
a row to `schema_info` and fails if that table is absent.  The result pairs the
catalog afterwards with the error (`none` is `nil`). -/
def DB.Exec (db : DB) (st : Statement) : DB × Option String :=
  let db' := { db with executed := db.executed ++ [st] }
  match st with
  | .createTable name _ =>
    if name = "schema_info" then
      match db.schema_info with
      | none => ({ db' with schema_info := some [] }, none)
      | some _ => (db', some "table schema_info already exists")
    else if name ∈ db.tables then
      (db', some ("table " ++ name ++ " already exists"))
    else
      ({ db' with tables := db.tables ++ [name] }, none)
  | .insertSchemaInfo version =>
    match db.schema_info with
    | none => (db', some "no such table: schema_info")
    | some rows => ({ db' with schema_info := some (rows ++ [some version]) }, none)

/-- The call `r.Scan(&v)` of the SQL library into a Go `int`: it fails on
`NULL` and on a value outside the 64-bit range. -/
def Scan (cell : Option Int) : Except String Int :=
  match cell with
  | none => .error "converting NULL to int is unsupported"
  | some x =>
    if -9223372036854775808 ≤ x ∧ x ≤ 9223372036854775807 then .ok x
    else .error "value out of range"

/-- The function `DB.schemaVersion`, lines 25 to 51: a failed query and an empty result both
mean version 0; a failed scan and a negative version are errors. -/
def DB.schemaVersion (db : DB) : Except String Nat :=
  match db.Query with
  | .error _ => .ok 0
  | .ok [] => .ok 0
  | .ok (cell :: _) =>
    match Scan cell with
    | .error e => .error e
    | .ok v =>
      if v < 0 then .error ("Invalid schema version " ++ toString v ++ " found")
      else .ok v.toNat

/-- The statements of `v1schema`, lines 54 to 126, in order. -/
def v1Statements : List Statement :=
  [ .createTable "schema_info" [("version", "INTEGER")],
    .insertSchemaInfo 1,
    .createTable "targets"
      [("uuid", "UUID PRIMARY KEY"), ("name", "TEXT"), ("summary", "TEXT"), ("plugin", "TEXT"),
       ("endpoint", "TEXT")],
    .createTable "stores"
      [("uuid", "UUID PRIMARY KEY"), ("name", "TEXT"), ("summary", "TEXT"), ("plugin", "TEXT"),
       ("endpoint", "TEXT")],
    .createTable "schedules"
      [("uuid", "UUID PRIMARY KEY"), ("name", "TEXT"), ("summary", "TEXT"), ("timespec", "TEXT")],
    .createTable "retention"
      [("uuid", "UUID PRIMARY KEY"), ("name", "TEXT"), ("summary", "TEXT"), ("expiry", "INTEGER")],
    .createTable "jobs"
      [("uuid", "UUID PRIMARY KEY"), ("target_uuid", "UUID"), ("store_uuid", "UUID"),
       ("schedule_uuid", "UUID"), ("retention_uuid", "UUID"), ("paused", "BOOLEAN"),
       ("name", "TEXT"), ("summary", "TEXT")],
    .createTable "archives"
      [("uuid", "UUID PRIMARY KEY"), ("target_uuid", "UUID"), ("store_uuid", "UUID"),
       ("store_key", "TEXT"), ("taken_at", "timestamp without time zone"),
       ("expires_at", "timestamp without time zone"), ("notes", "TEXT")],
    .createTable "tasks"
      [("uuid", "UUID PRIMARY KEY"), ("owner", "TEXT"), ("op", "TEXT"), ("args", "TEXT"),
       ("job_uuid", "UUID"), ("archive_uuid", "UUID"), ("status", "status"),
       ("started_at", "timestamp without time zone"),
       ("stopped_at", "timestamp without time zone"), ("log", "TEXT"), ("debug", "TEXT")] ]

/-- The function `DB.v1schema`, lines 53 to 129: each statement goes to `Exec`, whose result
is dropped, and the function returns `nil`. -/
def DB.v1schema (db : DB) : DB × Option String :=
  (v1Statements.foldl (fun d st => (d.Exec st).1) db, none)

/-- The function `DB.Setup`, lines 7 to 23: the stored version decides; the
error of the chosen branch, if any, is returned. -/
def DB.Setup (db : DB) : DB × Option String :=
  match db.schemaVersion with
  | .error e => (db, some e)
  | .ok v =>
    let (db', err) :=
      if v = 0 then db.v1schema
      else if v > 1 then
        (db, some ("Schema version " ++ toString v ++ " is newer than this version of SHIELD"))
      else (db, none)
    if err ≠ none then (db', err) else (db', none)

/-- A catalog with nothing in it. -/
def emptyCatalog : DB := { schema_info := none, tables := [], executed := [] }

/-- A catalog whose `schema_info` holds the one version `v`. -/
def catalogAt (v : Int) : DB := { schema_info := some [some v], tables := [], executed := [] }

/-! # agent/agent.go: theorems -/

namespace Agent

theorem inv_init (ch : Nat) (req : Request) (r : AgentRequest) : Inv ch req r execInit := by
  simp [Inv, execInit]

theorem step_inv (ch : Nat) (req : Request) (r : AgentRequest) (s s' : ExecState) (t : Thread)
    (hs : Inv ch req r s) (h : step ch req r s t = some s') : Inv ch req r s' := by
  obtain ⟨m, rl, oc, dc, tr⟩ := s
  cases t
  · -- the main goroutine moves
    cases m with
    | reply =>
      simp only [step, Option.some.injEq] at h
      subst h
      simp only [Inv] at hs ⊢
      obtain ⟨h1, h2, h3, h4⟩ := hs
      simp_all
    | spawn =>
      simp only [step, Option.some.injEq] at h
      subst h
      simp only [Inv] at hs ⊢
      obtain ⟨h1, h2, h3, h4⟩ := hs
      simp_all
    | callRun =>
      simp only [step, Option.some.injEq] at h
      subst h
      simp only [Inv] at hs ⊢
      obtain ⟨h1, h2, h3, h4⟩ := hs
      refine ⟨h2, h3, [], by simp, Or.inl ⟨h1, ?_⟩⟩
      simp_all [execHead, writes]
    | inRun todo =>
      cases todo with
      | nil =>
        simp only [Inv] at hs
        obtain ⟨h2, h3, sent, hsent, hrel⟩ := hs
        have hall : sent = r.chunks := by simp [hsent]
        subst hall
        by_cases hc : r.closes = true
        · simp only [step, hc, if_true, Option.some.injEq] at h
          subst h
          simp only [Inv, Draining]
          refine ⟨hc.symm, Or.inl ⟨h3, ?_⟩⟩
          simpa [RelayAt] using hrel
        · have hc' : r.closes = false := by simpa using hc
          simp only [step, hc', Bool.false_eq_true, if_false, Option.some.injEq] at h
          subst h
          simp only [Inv, Draining]
          refine ⟨?_, Or.inl ⟨h3, ?_⟩⟩
          · simp_all
          · simpa [RelayAt] using hrel
      | cons c todo =>
        simp only [Inv] at hs
        obtain ⟨h2, h3, sent, hsent, hrel⟩ := hs
        by_cases hr : rl = .receive
        · subst hr
          simp only [step, if_true, Option.some.injEq] at h
          subst h
          simp only [Inv]
          refine ⟨h2, h3, sent ++ [c], by simp [hsent], Or.inr ⟨sent, c, rfl, rfl, ?_⟩⟩
          rcases hrel with ⟨_, htr⟩ | ⟨d, c', _, hrl, _⟩
          · exact htr
          · simp at hrl
        · simp [step, hr] at h
    | runReturn =>
      by_cases hret : r.returns = true
      · simp only [step, hret, if_true, Option.some.injEq] at h
        subst h
        simp only [Inv] at hs ⊢
        exact ⟨hret, by simpa [Draining, RelayAt] using hs⟩
      · simp [step, hret] at h
    | waitDone =>
      simp only [Inv] at hs
      obtain ⟨hret, hoc, hd⟩ := hs
      by_cases hdc : dc = true
      · subst hdc
        simp only [step, if_true, Option.some.injEq] at h
        subst h
        simp only [Inv]
        rcases hd with ⟨hf, _⟩ | ⟨_, hf, _⟩ | ⟨hc, _, hrl, htr⟩
        · simp at hf
        · simp at hf
        · exact ⟨hc, hret, hrl, htr⟩
      · simp [step, hdc] at h
    | sendStatus =>
      simp only [step, Option.some.injEq] at h
      subst h
      simp only [Inv] at hs ⊢
      obtain ⟨h1, h2, h3, h4⟩ := hs
      refine ⟨h1, h2, h3, ?_⟩
      simp_all [statusEvent]
    | closeChannel =>
      simp only [step, Option.some.injEq] at h
      subst h
      simp only [Inv] at hs ⊢
      obtain ⟨h1, h2, h3, h4⟩ := hs
      refine ⟨h1, h2, h3, ?_⟩
      simp_all [execFull]
    | finished => simp [step] at h
  · -- the relay moves
    cases rl with
    | notStarted => simp [step] at h
    | exited => simp [step] at h
    | receive =>
      by_cases hoc : oc = true
      · subst hoc
        simp only [step, if_true, Option.some.injEq] at h
        subst h
        cases m <;> simp only [Inv, Draining, RelayAt] at hs ⊢ <;> simp_all
      · simp [step, hoc] at h
    | fprintf c =>
      simp only [step, Option.some.injEq] at h
      subst h
      cases m with
      | inRun todo =>
        simp only [Inv, RelayAt] at hs ⊢
        obtain ⟨h2, h3, sent, hsent, hrel⟩ := hs
        rcases hrel with ⟨hrl, _⟩ | ⟨d, c', hd, hrl, htr⟩
        · simp at hrl
        · simp only [RelayPc.fprintf.injEq] at hrl
          subst hrl hd htr
          exact ⟨h2, h3, d ++ [c], hsent, Or.inl ⟨trivial, by simp [writes]⟩⟩
      | runReturn =>
        simp only [Inv, Draining, RelayAt] at hs ⊢
        obtain ⟨hoc, hd⟩ := hs
        rcases hd with ⟨h3, ⟨hrl, _⟩ | ⟨d, c', hd, hrl, htr⟩⟩ | ⟨_, _, hrl, _⟩ | ⟨_, _, hrl, _⟩
        · simp at hrl
        · simp only [RelayPc.fprintf.injEq] at hrl
          subst hrl htr
          exact ⟨hoc, Or.inl ⟨h3, Or.inl ⟨trivial, by simp [writes, hd]⟩⟩⟩
        · simp at hrl
        · simp at hrl
      | waitDone =>
        simp only [Inv, Draining, RelayAt] at hs ⊢
        obtain ⟨hret, hoc, hd⟩ := hs
        rcases hd with ⟨h3, ⟨hrl, _⟩ | ⟨d, c', hd, hrl, htr⟩⟩ | ⟨_, _, hrl, _⟩ | ⟨_, _, hrl, _⟩
        · simp at hrl
        · simp only [RelayPc.fprintf.injEq] at hrl
          subst hrl htr
          exact ⟨hret, hoc, Or.inl ⟨h3, Or.inl ⟨trivial, by simp [writes, hd]⟩⟩⟩
        · simp at hrl
        · simp at hrl
      | reply => simp only [Inv] at hs; simp_all
      | spawn => simp only [Inv] at hs; simp_all
      | callRun => simp only [Inv] at hs; simp_all
      | sendStatus => simp only [Inv] at hs; simp_all
      | closeChannel => simp only [Inv] at hs; simp_all
      | finished => simp only [Inv] at hs; simp_all
    | closeDone =>
      simp only [step, Option.some.injEq] at h
      subst h
      cases m <;> simp only [Inv, Draining, RelayAt] at hs ⊢ <;> simp_all

theorem runSchedule_inv (ch : Nat) (req : Request) (r : AgentRequest) (sched : List Thread) :
    ∀ s : ExecState, Inv ch req r s → Inv ch req r (runSchedule ch req r sched s) := by
  induction sched with
  | nil => intro s hs; exact hs
  | cons t ts ih =>
    intro s hs
    simp only [runSchedule]
    cases h : step ch req r s t with
    | none => exact ih s hs
    | some s' => exact ih s' (step_inv ch req r s s' t hs h)

theorem drive_inv (ch : Nat) (req : Request) (r : AgentRequest) (fuel : Nat) :
    ∀ s : ExecState, Inv ch req r s → Inv ch req r (drive ch req r fuel s) := by
  induction fuel with
  | zero => intro s hs; exact hs
  | succ n ih =>
    intro s hs
    simp only [drive]
    cases h : step ch req r s .main with
    | some s' => exact ih s' (step_inv ch req r s s' _ hs h)
    | none =>
      cases h' : step ch req r s .relay with
      | some s' => exact ih s' (step_inv ch req r s s' _ hs h')
      | none => exact hs

theorem step_movesLeft (ch : Nat) (req : Request) (r : AgentRequest) (s s' : ExecState)
    (t : Thread) (h : step ch req r s t = some s') : movesLeft r s' < movesLeft r s := by
  obtain ⟨m, rl, oc, dc, tr⟩ := s
  cases t
  · cases m with
    | inRun todo =>
      cases todo with
      | nil =>
        by_cases hc : r.closes = true
        · simp only [step, hc, if_true, Option.some.injEq] at h
          subst h
          simp [movesLeft, mainSteps, toSend]
        · have hc' : r.closes = false := by simpa using hc
          simp only [step, hc', Bool.false_eq_true, if_false, Option.some.injEq] at h
          subst h
          simp [movesLeft, mainSteps, toSend]
      | cons c todo =>
        by_cases hr : rl = .receive
        · subst hr
          simp only [step, if_true, Option.some.injEq] at h
          subst h
          simp only [movesLeft, mainSteps, toSend, relaySteps, List.length_cons]
          omega
        · simp [step, hr] at h
    | runReturn =>
      by_cases hret : r.returns = true
      · simp only [step, hret, if_true, Option.some.injEq] at h
        subst h
        simp [movesLeft, mainSteps, toSend]
      · simp [step, hret] at h
    | waitDone =>
      by_cases hdc : dc = true
      · subst hdc
        simp only [step, if_true, Option.some.injEq] at h
        subst h
        simp [movesLeft, mainSteps, toSend]
      · simp [step, hdc] at h
    | finished => simp [step] at h
    | reply =>
      simp only [step, Option.some.injEq] at h
      subst h
      simp [movesLeft, mainSteps, toSend]
    | spawn =>
      simp only [step, Option.some.injEq] at h
      subst h
      cases rl <;> simp only [movesLeft, mainSteps, toSend, relaySteps] <;> omega
    | callRun =>
      simp only [step, Option.some.injEq] at h
      subst h
      simp [movesLeft, mainSteps, toSend]
    | sendStatus =>
      simp only [step, Option.some.injEq] at h
      subst h
      simp [movesLeft, mainSteps, toSend]
    | closeChannel =>
      simp only [step, Option.some.injEq] at h
      subst h
      simp [movesLeft, mainSteps, toSend]
  · cases rl with
    | notStarted => simp [step] at h
    | exited => simp [step] at h
    | receive =>
      by_cases hoc : oc = true
      · subst hoc
        simp only [step, if_true, Option.some.injEq] at h
        subst h
        simp [movesLeft, relaySteps]
      · simp [step, hoc] at h
    | fprintf c =>
      simp only [step, Option.some.injEq] at h
      subst h
      simp [movesLeft, relaySteps]
    | closeDone =>
      simp only [step, Option.some.injEq] at h
      subst h
      simp [movesLeft, relaySteps]

/-- With fuel for every move left, `drive` stops only where no goroutine can
move. -/
theorem drive_stuck (ch : Nat) (req : Request) (r : AgentRequest) (fuel : Nat) :
    ∀ s : ExecState, movesLeft r s ≤ fuel →
      step ch req r (drive ch req r fuel s) .main = none ∧
      step ch req r (drive ch req r fuel s) .relay = none := by
  induction fuel with
  | zero =>
    intro s hle
    simp only [drive]
    constructor
    · cases h : step ch req r s .main with
      | none => rfl
      | some s' => have := step_movesLeft ch req r s s' _ h; omega
    · cases h : step ch req r s .relay with
      | none => rfl
      | some s' => have := step_movesLeft ch req r s s' _ h; omega
  | succ n ih =>
    intro s hle
    simp only [drive]
    cases h : step ch req r s .main with
    | some s' =>
      have := step_movesLeft ch req r s s' _ h
      exact ih s' (by omega)
    | none =>
      cases h' : step ch req r s .relay with
      | some s' =>
        have := step_movesLeft ch req r s s' _ h'
        exact ih s' (by omega)
      | none => exact ⟨h, h'⟩

theorem status_not_mem_writes (ch : Nat) (req : Request) (r : AgentRequest) (d : List String) :
    statusEvent ch r ∉ execHead ch req r ++ writes ch d := by
  simp [statusEvent, execHead, writes]

theorem head_writes_initial (ch : Nat) (req : Request) (r : AgentRequest) (d rest : List String)
    (h : r.chunks = d ++ rest) : execHead ch req r ++ writes ch d <+: execFull ch req r := by
  refine ⟨writes ch rest ++ [statusEvent ch r, Event.close ch], ?_⟩
  simp [execFull, writes, h]

theorem relayAt_initial (ch : Nat) (req : Request) (r : AgentRequest) (s : ExecState)
    (sent todo : List String) (h : r.chunks = sent ++ todo) (hrel : RelayAt ch req r s sent) :
    s.trace <+: execFull ch req r ∧ statusEvent ch r ∉ s.trace := by
  rcases hrel with ⟨_, htr⟩ | ⟨d, c, hd, _, htr⟩
  · rw [htr]
    exact ⟨head_writes_initial ch req r sent todo h, status_not_mem_writes ch req r sent⟩
  · rw [htr]
    refine ⟨head_writes_initial ch req r d (c :: todo) ?_, status_not_mem_writes ch req r d⟩
    simp [h, hd]

/-- Under the invariant the calls made so far are an initial part of the
complete sequence, and the status has been sent only if every string has been
written before. -/
theorem inv_safe (ch : Nat) (req : Request) (r : AgentRequest) (s : ExecState)
    (hs : Inv ch req r s) :
    s.trace <+: execFull ch req r ∧
    (statusEvent ch r ∈ s.trace →
      execHead ch req r ++ writes ch r.chunks ++ [statusEvent ch r] <+: s.trace) ∧
    (s.main = .finished → s.trace = execFull ch req r) := by
  obtain ⟨m, rl, oc, dc, tr⟩ := s
  cases m with
  | reply =>
    simp only [Inv] at hs
    obtain ⟨_, _, _, htr⟩ := hs
    subst htr
    simp
  | spawn =>
    simp only [Inv] at hs
    obtain ⟨_, _, _, htr⟩ := hs
    subst htr
    refine ⟨⟨Event.run ch r :: (writes ch r.chunks ++ [statusEvent ch r, Event.close ch]), ?_⟩,
      ?_, ?_⟩
    · simp [execFull, execHead]
    · simp [statusEvent]
    · simp
  | callRun =>
    simp only [Inv] at hs
    obtain ⟨_, _, _, htr⟩ := hs
    subst htr
    refine ⟨⟨Event.run ch r :: (writes ch r.chunks ++ [statusEvent ch r, Event.close ch]), ?_⟩,
      ?_, ?_⟩
    · simp [execFull, execHead]
    · simp [statusEvent]
    · simp
  | inRun todo =>
    simp only [Inv] at hs
    obtain ⟨_, _, sent, hsent, hrel⟩ := hs
    have h := relayAt_initial ch req r _ sent todo hsent hrel
    exact ⟨h.1, fun hmem => absurd hmem h.2, by simp⟩
  | runReturn =>
    simp only [Inv, Draining] at hs
    obtain ⟨_, hd⟩ := hs
    rcases hd with ⟨_, hrel⟩ | ⟨_, _, _, htr⟩ | ⟨_, _, _, htr⟩
    · have h := relayAt_initial ch req r _ r.chunks [] (by simp) hrel
      exact ⟨h.1, fun hmem => absurd hmem h.2, by simp⟩
    · subst htr
      exact ⟨head_writes_initial ch req r r.chunks [] (by simp),
        fun hmem => absurd hmem (status_not_mem_writes ch req r _), by simp⟩
    · subst htr
      exact ⟨head_writes_initial ch req r r.chunks [] (by simp),
        fun hmem => absurd hmem (status_not_mem_writes ch req r _), by simp⟩
  | waitDone =>
    simp only [Inv, Draining] at hs
    obtain ⟨_, _, hd⟩ := hs
    rcases hd with ⟨_, hrel⟩ | ⟨_, _, _, htr⟩ | ⟨_, _, _, htr⟩
    · have h := relayAt_initial ch req r _ r.chunks [] (by simp) hrel
      exact ⟨h.1, fun hmem => absurd hmem h.2, by simp⟩
    · subst htr
      exact ⟨head_writes_initial ch req r r.chunks [] (by simp),
        fun hmem => absurd hmem (status_not_mem_writes ch req r _), by simp⟩
    · subst htr
      exact ⟨head_writes_initial ch req r r.chunks [] (by simp),
        fun hmem => absurd hmem (status_not_mem_writes ch req r _), by simp⟩
  | sendStatus =>
    simp only [Inv] at hs
    obtain ⟨_, _, _, htr⟩ := hs
    subst htr
    exact ⟨head_writes_initial ch req r r.chunks [] (by simp),
      fun hmem => absurd hmem (status_not_mem_writes ch req r _), by simp⟩
  | closeChannel =>
    simp only [Inv] at hs
    obtain ⟨_, _, _, htr⟩ := hs
    subst htr
    refine ⟨⟨[Event.close ch], by simp [execFull]⟩, fun _ => List.prefix_refl _, by simp⟩
  | finished =>
    simp only [Inv] at hs
    obtain ⟨_, _, _, htr⟩ := hs
    subst htr
    refine ⟨List.prefix_refl _, fun _ => ⟨[Event.close ch], by simp [execFull]⟩, fun _ => rfl⟩

/-- Where no goroutine can move: the main goroutine has finished with the
complete sequence of calls if `Run` closes `output` and returns; otherwise it
has not, and the calls made are the reply, the call of `Run` and the writes. -/
theorem stuck_trace (ch : Nat) (req : Request) (r : AgentRequest) (s : ExecState)
    (hs : Inv ch req r s) (h1 : step ch req r s .main = none)
    (h2 : step ch req r s .relay = none) :
    (s.trace, decide (s.main = .finished)) =
      if r.closes && r.returns then (execFull ch req r, true)
      else (execHead ch req r ++ writes ch r.chunks, false) := by
  obtain ⟨m, rl, oc, dc, tr⟩ := s
  cases m with
  | reply => simp [step] at h1
  | spawn => simp [step] at h1
  | callRun => simp [step] at h1
  | sendStatus => simp [step] at h1
  | closeChannel => simp [step] at h1
  | inRun todo =>
    cases todo with
    | nil =>
      by_cases hc : r.closes = true
      · simp [step, hc] at h1
      · have hc' : r.closes = false := by simpa using hc
        simp [step, hc'] at h1
    | cons c todo =>
      simp only [Inv, RelayAt] at hs
      obtain ⟨_, _, sent, _, hrel⟩ := hs
      rcases hrel with ⟨hrl, _⟩ | ⟨d, c', _, hrl, _⟩
      · subst hrl
        simp [step] at h1
      · subst hrl
        simp [step] at h2
  | runReturn =>
    have hret : r.returns = false := by
      by_cases hret : r.returns = true
      · simp [step, hret] at h1
      · simpa using hret
    simp only [Inv, Draining, RelayAt] at hs
    obtain ⟨_, hd⟩ := hs
    rcases hd with ⟨_, ⟨_, htr⟩ | ⟨d, c', _, hrl, _⟩⟩ | ⟨_, _, hrl, _⟩ | ⟨_, _, _, htr⟩
    · simp [hret, htr]
    · subst hrl
      simp [step] at h2
    · subst hrl
      simp [step] at h2
    · simp [hret, htr]
  | waitDone =>
    simp only [Inv, Draining, RelayAt] at hs
    obtain ⟨_, hoc, hd⟩ := hs
    rcases hd with ⟨_, ⟨hrl, htr⟩ | ⟨d, c', _, hrl, _⟩⟩ | ⟨_, _, hrl, _⟩ | ⟨_, hdc, _, _⟩
    · subst hrl
      have hc : r.closes = false := by
        by_cases hc : r.closes = true
        · rw [hc] at hoc
          subst hoc
          simp [step] at h2
        · simpa using hc
      simp [hc, htr]
    · subst hrl
      simp [step] at h2
    · subst hrl
      simp [step] at h2
    · subst hdc
      simp [step] at h1
  | finished =>
    simp only [Inv] at hs
    obtain ⟨hc, hret, _, htr⟩ := hs
    simp [hc, hret, htr]

/-- No deadlock: with `Run` closing `output` and returning, a machine that has
not finished has a goroutine that can move. -/
theorem inv_progress (ch : Nat) (req : Request) (r : AgentRequest) (s : ExecState)
    (hs : Inv ch req r s) (hc : r.closes = true) (hr : r.returns = true) :
    s.main = .finished ∨ ∃ t s', step ch req r s t = some s' := by
  cases h1 : step ch req r s .main with
  | some s' => exact Or.inr ⟨.main, s', h1⟩
  | none =>
    cases h2 : step ch req r s .relay with
    | some s' => exact Or.inr ⟨.relay, s', h2⟩
    | none =>
      have h := stuck_trace ch req r s hs h1 h2
      simp only [hc, hr, Bool.and_self, if_true, Prod.mk.injEq, decide_eq_true_eq] at h
      exact Or.inl h.2

/-- Closed form of `execRequest`: with `Run` closing `output` and returning,
the complete sequence of calls and a completed loop body; otherwise the reply,
the call of `Run` and the writes, and a main goroutine that waits forever. -/
theorem execRequest_eq (ch : Nat) (req : Request) (r : AgentRequest) :
    execRequest ch req r =
      if r.closes && r.returns then (execFull ch req r, true)
      else (execHead ch req r ++ writes ch r.chunks, false) := by
  have hle : movesLeft r execInit ≤ execFuel r := by
    simp only [movesLeft, execInit, mainSteps, toSend, relaySteps, execFuel]
    omega
  have hstuck := drive_stuck ch req r (execFuel r) execInit hle
  have hinv := drive_inv ch req r (execFuel r) execInit (inv_init ch req r)
  exact stuck_trace ch req r _ hinv hstuck.1 hstuck.2

theorem handleRequests_cons (ParseRequest : Request → Except String AgentRequest) (ch : Nat)
    (req : Request) (rest : List Request) (es : List Event)
    (h : handleRequest ParseRequest ch req = (es, true)) :
    handleRequests ParseRequest ch (req :: rest) =
      (es ++ (handleRequests ParseRequest ch rest).1, (handleRequests ParseRequest ch rest).2) := by
  simp [handleRequests, h]

theorem handleRequest_exec (ParseRequest : Request → Except String AgentRequest) (ch : Nat)
    (req : Request) (r : AgentRequest) (htype : req.type = "exec")
    (hparse : ParseRequest req = .ok r) :
    handleRequest ParseRequest ch req =
      if r.closes && r.returns then (Event.parseRequest ch req :: execFull ch req r, true)
      else (Event.parseRequest ch req :: (execHead ch req r ++ writes ch r.chunks), false) := by
  simp only [handleRequest, htype, hparse, execRequest_eq]
  by_cases h : (r.closes && r.returns) = true
  · simp [h]
  · simp [h]

/-- C1: for an exec request whose payload parses and whose `Run` sends its
strings, closes `output` and returns, the calls of the loop body are, in order:
the parse, `Reply(true, nil)`, the call of `Run`, the writes of exactly the
strings sent, in the order sent, one `exit-status` request, the close of the
channel; the loop then goes on with the next request.  Whatever the scheduler
does with the two goroutines, the calls made so far are an initial part of that
sequence, the status is never sent before every string is written, a run
that reaches the end of line 104 has made exactly that sequence, and until
then one of the goroutines can always move. -/
theorem exec_request_events (ParseRequest : Request → Except String AgentRequest) (ch : Nat)
    (req : Request) (r : AgentRequest) (rest : List Request)
    (htype : req.type = "exec") (hparse : ParseRequest req = .ok r)
    (hcloses : r.closes = true) (hreturns : r.returns = true) :
    handleRequest ParseRequest ch req =
      ([Event.parseRequest ch req, Event.reply ch req true none, Event.run ch r]
        ++ r.chunks.map (Event.write ch)
        ++ [Event.sendRequest ch "exit-status" false (exitStatus r.err), Event.close ch], true) ∧
    handleRequests ParseRequest ch (req :: rest) =
      ([Event.parseRequest ch req, Event.reply ch req true none, Event.run ch r]
        ++ r.chunks.map (Event.write ch)
        ++ [Event.sendRequest ch "exit-status" false (exitStatus r.err), Event.close ch]
        ++ (handleRequests ParseRequest ch rest).1, (handleRequests ParseRequest ch rest).2) ∧
    ∀ sched : List Thread,
      (runSchedule ch req r sched execInit).trace <+:
        [Event.reply ch req true none, Event.run ch r] ++ r.chunks.map (Event.write ch)
          ++ [Event.sendRequest ch "exit-status" false (exitStatus r.err), Event.close ch] ∧
      (Event.sendRequest ch "exit-status" false (exitStatus r.err)
          ∈ (runSchedule ch req r sched execInit).trace →
        [Event.reply ch req true none, Event.run ch r] ++ r.chunks.map (Event.write ch)
          ++ [Event.sendRequest ch "exit-status" false (exitStatus r.err)]
          <+: (runSchedule ch req r sched execInit).trace) ∧
      ((runSchedule ch req r sched execInit).main = .finished →
        (runSchedule ch req r sched execInit).trace =
          [Event.reply ch req true none, Event.run ch r] ++ r.chunks.map (Event.write ch)
            ++ [Event.sendRequest ch "exit-status" false (exitStatus r.err), Event.close ch]) ∧
      ((runSchedule ch req r sched execInit).main = .finished ∨
        ∃ t s', step ch req r (runSchedule ch req r sched execInit) t = some s') := by
  have hbody : handleRequest ParseRequest ch req =
      ([Event.parseRequest ch req, Event.reply ch req true none, Event.run ch r]
        ++ r.chunks.map (Event.write ch)
        ++ [Event.sendRequest ch "exit-status" false (exitStatus r.err), Event.close ch], true) := by
    rw [handleRequest_exec ParseRequest ch req r htype hparse]
    simp [hcloses, hreturns, execFull, execHead, writes, statusEvent]
  refine ⟨hbody, handleRequests_cons ParseRequest ch req rest _ hbody, ?_⟩
  intro sched
  have hinv := runSchedule_inv ch req r sched execInit (inv_init ch req r)
  have hsafe := inv_safe ch req r _ hinv
  have hprog := inv_progress ch req r _ hinv hcloses hreturns
  simp only [execFull, execHead, writes, statusEvent, List.append_assoc] at hsafe
  simp only [List.append_assoc]
  exact ⟨hsafe.1, hsafe.2.1, hsafe.2.2, hprog⟩

/-- Witness of C1: the request `echo hello`. -/
theorem exec_request_events_witness :
    handleRequest sampleParse 0 (execReq [1]) =
      ([Event.parseRequest 0 (execReq [1]), Event.reply 0 (execReq [1]) true none,
        Event.run 0 echoHello, Event.write 0 "hello\n",
        Event.sendRequest 0 "exit-status" false [0, 0, 0, 0], Event.close 0], true) :=
  (exec_request_events sampleParse 0 (execReq [1]) echoHello [] rfl rfl rfl rfl).1

/-- C2, evaluated on an exec request that parses and whose `Run` returns an
error without closing `output`: the relay never sees the end of `output`,
`done` is never closed, the main goroutine waits at line 98, and no
`exit-status` request is sent at all. -/
theorem no_status_without_close :
    (execReq [4]).type = "exec" ∧
    sampleParse (execReq [4]) = .ok unclosedFailingRun ∧
    unclosedFailingRun.returns = true ∧
    unclosedFailingRun.err ≠ none ∧
    handleRequest sampleParse 0 (execReq [4]) =
      ([Event.parseRequest 0 (execReq [4]), Event.reply 0 (execReq [4]) true none,
        Event.run 0 unclosedFailingRun, Event.write 0 "x"], false) ∧
    (handleRequest sampleParse 0 (execReq [4])).1.filter Event.isSendRequest = [] := by
  refine ⟨by decide, rfl, by decide, by decide, by decide, by decide⟩

/-- C2 as amended: for an exec request that parses and whose `Run` closes
`output` and returns, the loop body sends exactly one request; it is named
`exit-status`, wants no reply, and its payload is the four bytes `[0,0,0,0]`
when `Run` returned no error and `[1,0,0,0]` when it returned an error,
whatever strings were sent. -/
theorem exit_status_frame (ParseRequest : Request → Except String AgentRequest) (ch : Nat)
    (req : Request) (r : AgentRequest)
    (htype : req.type = "exec") (hparse : ParseRequest req = .ok r)
    (hcloses : r.closes = true) (hreturns : r.returns = true) :
    (handleRequest ParseRequest ch req).1.filter Event.isSendRequest =
      [Event.sendRequest ch "exit-status" false (exitStatus r.err)] ∧
    (r.err = none → exitStatus r.err = [0, 0, 0, 0]) ∧
    (r.err ≠ none → exitStatus r.err = [1, 0, 0, 0]) ∧
    (exitStatus r.err).length = 4 ∧
    ((exitStatus r.err).get? 0 = some 0 ∨ (exitStatus r.err).get? 0 = some 1) ∧
    (exitStatus r.err).get? 1 = some 0 ∧
    (exitStatus r.err).get? 2 = some 0 ∧
    (exitStatus r.err).get? 3 = some 0 := by
  refine ⟨?_, ?_, ?_, ?_, ?_, ?_, ?_, ?_⟩
  · rw [handleRequest_exec ParseRequest ch req r htype hparse]
    simp [hcloses, hreturns, execFull, execHead, writes, statusEvent, List.filter_cons,
      Event.isSendRequest, List.filter_map, Function.comp_def]
  · intro h; simp [exitStatus, h]
  · intro h; simp [exitStatus, h]
  all_goals cases h : r.err <;> simp [exitStatus]

/-- Witness of C2 as amended: a `Run` that fails after some output and closes
`output`. -/
theorem exit_status_frame_witness :
    (handleRequest sampleParse 0 (execReq [2])).1.filter Event.isSendRequest =
      [Event.sendRequest 0 "exit-status" false [1, 0, 0, 0]] :=
  (exit_status_frame sampleParse 0 (execReq [2]) failingRun rfl rfl rfl rfl).1

/-- A `Run` that returns without closing `output` leaves `handleConn` waiting at
line 98: no status is sent, nothing is closed, and the channels after it are
not reached. -/
theorem unclosed_output_blocks :
    handleConn sampleParse
        [{ ChannelType := "session", Accept := .ok [execReq [3], execReq [1]] },
         { ChannelType := "session", Accept := .ok [execReq [1]] }] [] =
      ([Event.accept 0,
        Event.parseRequest 0 (execReq [3]), Event.reply 0 (execReq [3]) true none,
        Event.run 0 leakyRun, Event.write 0 "x"], .blocked) := by
  decide

/-- C3, evaluated on a channel that receives two well-formed exec requests: the
first is run, its status sent and the channel closed, and then the second is
parsed, acknowledged and run as well, on the closed channel. -/
theorem second_exec_is_run :
    handleConn sampleParse
        [{ ChannelType := "session", Accept := .ok [execReq [1], execReq [2]] }] [] =
      ([Event.accept 0,
        Event.parseRequest 0 (execReq [1]), Event.reply 0 (execReq [1]) true none,
        Event.run 0 echoHello, Event.write 0 "hello\n",
        Event.sendRequest 0 "exit-status" false [0, 0, 0, 0], Event.close 0,
        Event.parseRequest 0 (execReq [2]), Event.reply 0 (execReq [2]) true none,
        Event.run 0 failingRun, Event.write 0 "half",
        Event.sendRequest 0 "exit-status" false [1, 0, 0, 0], Event.close 0,
        Event.close 0, Event.connClose], .returned) := by
  decide

/-- C4: a request whose type is not `exec` gets `Reply(false, nil)` and nothing
else: no parse, no run, no status, no close; the loop then handles the next
request of the same channel. -/
theorem non_exec_rejected (ParseRequest : Request → Except String AgentRequest) (ch : Nat)
    (req : Request) (rest : List Request) (htype : req.type ≠ "exec") :
    handleRequest ParseRequest ch req =
      ([Event.printf ("rejecting non-exec channel request (type=" ++ req.type ++ ")\n"),
        Event.reply ch req false none], true) ∧
    handleRequests ParseRequest ch (req :: rest) =
      ([Event.printf ("rejecting non-exec channel request (type=" ++ req.type ++ ")\n"),
        Event.reply ch req false none] ++ (handleRequests ParseRequest ch rest).1,
       (handleRequests ParseRequest ch rest).2) := by
  have hbody : handleRequest ParseRequest ch req =
      ([Event.printf ("rejecting non-exec channel request (type=" ++ req.type ++ ")\n"),
        Event.reply ch req false none], true) := by
    simp [handleRequest, htype]
  exact ⟨hbody, handleRequests_cons ParseRequest ch req rest _ hbody⟩

/-- Witness of C4: a `shell` request followed by `echo hello`. -/
theorem non_exec_rejected_witness :
    handleRequests sampleParse 0 [shellReq, execReq [1]] =
      ([Event.printf "rejecting non-exec channel request (type=shell)\n",
        Event.reply 0 shellReq false none] ++ (handleRequests sampleParse 0 [execReq [1]]).1,
       (handleRequests sampleParse 0 [execReq [1]]).2) :=
  (non_exec_rejected sampleParse 0 shellReq [execReq [1]] (by decide)).2

/-- C5: an exec request whose payload does not parse gets `Reply(false, nil)`
and nothing else: no run, no status, no close.  The requests after it are
handled as they are without it; a well-formed exec request that follows is
acknowledged, run and answered with its status. -/
theorem malformed_exec_rejected (ParseRequest : Request → Except String AgentRequest) (ch : Nat)
    (req : Request) (e : String) (rest : List Request)
    (htype : req.type = "exec") (hparse : ParseRequest req = .error e) :
    handleRequest ParseRequest ch req =
      ([Event.parseRequest ch req, Event.printf (e ++ "\n"), Event.reply ch req false none],
        true) ∧
    handleRequests ParseRequest ch (req :: rest) =
      ([Event.parseRequest ch req, Event.printf (e ++ "\n"), Event.reply ch req false none]
        ++ (handleRequests ParseRequest ch rest).1, (handleRequests ParseRequest ch rest).2) ∧
    ∀ (good : Request) (r : AgentRequest), good.type = "exec" → ParseRequest good = .ok r →
      r.closes = true → r.returns = true →
      handleRequests ParseRequest ch [req, good] =
        ([Event.parseRequest ch req, Event.printf (e ++ "\n"), Event.reply ch req false none]
          ++ ([Event.parseRequest ch good, Event.reply ch good true none, Event.run ch r]
          ++ r.chunks.map (Event.write ch)
          ++ [Event.sendRequest ch "exit-status" false (exitStatus r.err), Event.close ch]),
         true) := by
  have hbody : handleRequest ParseRequest ch req =
      ([Event.parseRequest ch req, Event.printf (e ++ "\n"), Event.reply ch req false none],
        true) := by
    simp [handleRequest, htype, hparse]
  refine ⟨hbody, handleRequests_cons ParseRequest ch req _ _ hbody, ?_⟩
  intro good r hgood hok hc hr
  rw [handleRequests_cons ParseRequest ch req _ _ hbody]
  have hg := handleRequest_exec ParseRequest ch good r hgood hok
  simp only [hc, hr, Bool.and_self, if_true] at hg
  rw [handleRequests_cons ParseRequest ch good [] _ hg]
  simp [handleRequests, execFull, execHead, writes, statusEvent]

/-- Witness of C5: a malformed exec request followed by `echo hello`. -/
theorem malformed_exec_rejected_witness :
    handleRequests sampleParse 0 [execReq [9], execReq [1]] =
      ([Event.parseRequest 0 (execReq [9]), Event.printf "malformed request\n",
        Event.reply 0 (execReq [9]) false none,
        Event.parseRequest 0 (execReq [1]), Event.reply 0 (execReq [1]) true none,
        Event.run 0 echoHello, Event.write 0 "hello\n",
        Event.sendRequest 0 "exit-status" false [0, 0, 0, 0], Event.close 0], true) :=
  (malformed_exec_rejected sampleParse 0 (execReq [9]) "malformed request" [] rfl rfl).2.2
    (execReq [1]) echoHello rfl rfl rfl rfl

theorem execFull_within (ch : Nat) (req : Request) (r : AgentRequest) (e : Event)
    (he : e ∈ execFull ch req r) : e.within ch := by
  simp only [execFull, execHead, writes, statusEvent, List.mem_append, List.mem_cons,
    List.mem_map, List.mem_singleton, List.not_mem_nil, or_false] at he
  rcases he with (((rfl | rfl) | ⟨s, _, rfl⟩) | rfl | rfl) <;> simp [Event.within, Event.chan]

theorem execHead_within (ch : Nat) (req : Request) (r : AgentRequest) (e : Event)
    (he : e ∈ execHead ch req r ++ writes ch r.chunks) : e.within ch := by
  simp only [execHead, writes, List.mem_append, List.mem_cons,
    List.mem_map, List.mem_singleton, List.not_mem_nil, or_false] at he
  rcases he with ((rfl | rfl) | ⟨s, _, rfl⟩) <;> simp [Event.within, Event.chan]

theorem handleRequest_within (ParseRequest : Request → Except String AgentRequest) (ch : Nat)
    (req : Request) (e : Event) (he : e ∈ (handleRequest ParseRequest ch req).1) :
    e.within ch := by
  by_cases htype : req.type = "exec"
  · cases hp : ParseRequest req with
    | error msg =>
      simp only [handleRequest, htype, hp, ne_eq, not_true_eq_false, if_false, List.mem_cons,
        List.mem_singleton, List.not_mem_nil, or_false] at he
      rcases he with rfl | rfl | rfl <;> simp [Event.within, Event.chan]
    | ok r =>
      rw [handleRequest_exec ParseRequest ch req r htype hp] at he
      by_cases h : (r.closes && r.returns) = true
      · rw [if_pos h] at he
        rcases List.mem_cons.mp he with rfl | he
        · simp [Event.within, Event.chan]
        · exact execFull_within ch req r e he
      · rw [if_neg h] at he
        rcases List.mem_cons.mp he with rfl | he
        · simp [Event.within, Event.chan]
        · exact execHead_within ch req r e he
  · simp only [handleRequest, htype, ne_eq, not_false_eq_true, if_true, List.mem_cons,
      List.mem_singleton, List.not_mem_nil, or_false] at he
    rcases he with rfl | rfl <;> simp [Event.within, Event.chan]

theorem handleRequests_within (ParseRequest : Request → Except String AgentRequest) (ch : Nat)
    (rs : List Request) : ∀ e ∈ (handleRequests ParseRequest ch rs).1, e.within ch := by
  induction rs with
  | nil => intro e he; simp [handleRequests] at he
  | cons req rest ih =>
    intro e he
    cases hb : handleRequest ParseRequest ch req with
    | mk es fin =>
      have hes : ∀ x ∈ es, x.within ch := by
        intro x hx
        have := handleRequest_within ParseRequest ch req x
        rw [hb] at this
        exact this hx
      cases fin with
      | true =>
        rw [handleRequests_cons ParseRequest ch req rest es hb] at he
        rcases List.mem_append.mp he with h | h
        · exact hes e h
        · exact ih e h
      | false =>
        simp only [handleRequests, hb] at he
        exact hes e (by simpa using he)

theorem handleChannels_reject (ParseRequest : Request → Except String AgentRequest) (k : Nat)
    (defers : List Event) (c : NewChannel) (rest : List NewChannel)
    (hty : c.ChannelType ≠ "session") :
    handleChannels ParseRequest k defers (c :: rest) =
      ([Event.printf ("rejecting unknown channel type: " ++ c.ChannelType ++ "\n"),
        Event.reject k .UnknownChannelType "unknown channel type"]
        ++ (handleChannels ParseRequest (k + 1) defers rest).1,
       (handleChannels ParseRequest (k + 1) defers rest).2) := by
  simp [handleChannels, hty]

theorem handleChannels_acceptFailed (ParseRequest : Request → Except String AgentRequest)
    (k : Nat) (defers : List Event) (c : NewChannel) (rest : List NewChannel) (msg : String)
    (hty : c.ChannelType = "session") (hacc : c.Accept = .error msg) :
    handleChannels ParseRequest k defers (c :: rest) =
      ([Event.acceptFailed k, Event.printf ("failed to accept channel: " ++ msg ++ "\n")]
        ++ defers, .returned) := by
  simp [handleChannels, hty, hacc]

theorem handleChannels_blocked (ParseRequest : Request → Except String AgentRequest)
    (k : Nat) (defers : List Event) (c : NewChannel) (rest : List NewChannel)
    (rs : List Request) (es : List Event)
    (hty : c.ChannelType = "session") (hacc : c.Accept = .ok rs)
    (hrs : handleRequests ParseRequest k rs = (es, false)) :
    handleChannels ParseRequest k defers (c :: rest) = (Event.accept k :: es, .blocked) := by
  simp [handleChannels, hty, hacc, hrs]

theorem handleChannels_served (ParseRequest : Request → Except String AgentRequest)
    (k : Nat) (defers : List Event) (c : NewChannel) (rest : List NewChannel)
    (rs : List Request) (es : List Event)
    (hty : c.ChannelType = "session") (hacc : c.Accept = .ok rs)
    (hrs : handleRequests ParseRequest k rs = (es, true)) :
    handleChannels ParseRequest k defers (c :: rest) =
      (Event.accept k :: es
        ++ (handleChannels ParseRequest (k + 1) (Event.close k :: defers) rest).1,
       (handleChannels ParseRequest (k + 1) (Event.close k :: defers) rest).2) := by
  simp [handleChannels, hty, hacc, hrs]

/-- Every event of the channel loop from position `k` on is one of the deferred
calls, a log line, or belongs to a channel at position `k` or later. -/
theorem handleChannels_chan (ParseRequest : Request → Except String AgentRequest)
    (cs : List NewChannel) : ∀ (k : Nat) (defers : List Event),
    ∀ e ∈ (handleChannels ParseRequest k defers cs).1,
      e ∈ defers ∨ (∃ t, e = Event.printf t) ∨ ∃ j, e.chan = some j ∧ k ≤ j := by
  induction cs with
  | nil => intro k defers e he; exact Or.inl (by simpa [handleChannels] using he)
  | cons c rest ih =>
    intro k defers e he
    have hwithin : ∀ x, x.within k →
        x ∈ defers ∨ (∃ t, x = Event.printf t) ∨ ∃ j, x.chan = some j ∧ k ≤ j := by
      intro x hx
      rcases hx with hx | hx
      · exact Or.inr (Or.inr ⟨k, hx, le_refl k⟩)
      · exact Or.inr (Or.inl hx)
    by_cases hty : c.ChannelType = "session"
    · cases hacc : c.Accept with
      | error msg =>
        rw [handleChannels_acceptFailed ParseRequest k defers c rest msg hty hacc] at he
        simp only [List.mem_append, List.mem_cons, List.not_mem_nil, or_false] at he
        rcases he with (rfl | rfl) | he
        · exact Or.inr (Or.inr ⟨k, rfl, le_refl k⟩)
        · exact Or.inr (Or.inl ⟨_, rfl⟩)
        · exact Or.inl he
      | ok rs =>
        have hreq := handleRequests_within ParseRequest k rs
        cases hrs : handleRequests ParseRequest k rs with
        | mk es fin =>
          rw [hrs] at hreq
          cases fin with
          | false =>
            rw [handleChannels_blocked ParseRequest k defers c rest rs es hty hacc hrs] at he
            rcases List.mem_cons.mp he with rfl | he
            · exact Or.inr (Or.inr ⟨k, rfl, le_refl k⟩)
            · exact hwithin e (hreq e he)
          | true =>
            rw [handleChannels_served ParseRequest k defers c rest rs es hty hacc hrs] at he
            rcases List.mem_cons.mp he with rfl | he
            · exact Or.inr (Or.inr ⟨k, rfl, le_refl k⟩)
            rcases List.mem_append.mp he with he | he
            · exact hwithin e (hreq e he)
            · rcases ih (k + 1) (Event.close k :: defers) e he with h | h | ⟨j, hj, hle⟩
              · rcases List.mem_cons.mp h with rfl | h
                · exact Or.inr (Or.inr ⟨k, rfl, le_refl k⟩)
                · exact Or.inl h
              · exact Or.inr (Or.inl h)
              · exact Or.inr (Or.inr ⟨j, hj, by omega⟩)
    · rw [handleChannels_reject ParseRequest k defers c rest hty] at he
      simp only [List.mem_append, List.mem_cons, List.not_mem_nil, or_false] at he
      rcases he with (rfl | rfl) | he
      · exact Or.inr (Or.inl ⟨_, rfl⟩)
      · exact Or.inr (Or.inr ⟨k, rfl, le_refl k⟩)
      · rcases ih (k + 1) defers e he with h | h | ⟨j, hj, hle⟩
        · exact Or.inl h
        · exact Or.inr (Or.inl h)
        · exact Or.inr (Or.inr ⟨j, hj, by omega⟩)

/-- With a channel of another kind at position `k + pre.length`, the only event
of that channel is its rejection. -/
theorem handleChannels_non_session (ParseRequest : Request → Except String AgentRequest)
    (c : NewChannel) (post : List NewChannel) (hty : c.ChannelType ≠ "session")
    (pre : List NewChannel) : ∀ (k : Nat) (defers : List Event),
    (∀ d ∈ defers, d.chan ≠ some (k + pre.length)) →
    ∀ e ∈ (handleChannels ParseRequest k defers (pre ++ c :: post)).1,
      e.chan = some (k + pre.length) →
      e = Event.reject (k + pre.length) .UnknownChannelType "unknown channel type" := by
  induction pre with
  | nil =>
    intro k defers hd e he hch
    simp only [List.nil_append, List.length_nil, Nat.add_zero] at he hch hd ⊢
    rw [handleChannels_reject ParseRequest k defers c post hty] at he
    simp only [List.mem_append, List.mem_cons, List.not_mem_nil, or_false] at he
    rcases he with (rfl | rfl) | he
    · simp [Event.chan] at hch
    · rfl
    · rcases handleChannels_chan ParseRequest post (k + 1) defers e he with h | ⟨t, rfl⟩ | ⟨j, hj, hle⟩
      · exact absurd hch (hd e h)
      · simp [Event.chan] at hch
      · rw [hj] at hch
        simp only [Option.some.injEq] at hch
        omega
  | cons p ps ih =>
    intro k defers hd e he hch
    have hlen : k + (p :: ps).length = k + 1 + ps.length := by
      simp only [List.length_cons]; omega
    rw [hlen] at hch hd ⊢
    simp only [List.cons_append] at he
    have hwithin : ∀ x : Event, x.within k → x.chan ≠ some (k + 1 + ps.length) := by
      intro x hx hx'
      rcases hx with hx | ⟨t, rfl⟩
      · rw [hx] at hx'
        simp only [Option.some.injEq] at hx'
        omega
      · simp [Event.chan] at hx'
    by_cases hp : p.ChannelType = "session"
    · cases hacc : p.Accept with
      | error msg =>
        rw [handleChannels_acceptFailed ParseRequest k defers p _ msg hp hacc] at he
        simp only [List.mem_append, List.mem_cons, List.not_mem_nil, or_false] at he
        rcases he with (rfl | rfl) | he
        · simp only [Event.chan, Option.some.injEq] at hch
          omega
        · simp [Event.chan] at hch
        · exact absurd hch (hd e he)
      | ok rs =>
        have hreq := handleRequests_within ParseRequest k rs
        cases hrs : handleRequests ParseRequest k rs with
        | mk es fin =>
          rw [hrs] at hreq
          cases fin with
          | false =>
            rw [handleChannels_blocked ParseRequest k defers p _ rs es hp hacc hrs] at he
            rcases List.mem_cons.mp he with rfl | he
            · simp only [Event.chan, Option.some.injEq] at hch
              omega
            · exact absurd hch (hwithin e (hreq e he))
          | true =>
            rw [handleChannels_served ParseRequest k defers p _ rs es hp hacc hrs] at he
            rcases List.mem_cons.mp he with rfl | he
            · simp only [Event.chan, Option.some.injEq] at hch
              omega
            rcases List.mem_append.mp he with he | he
            · exact absurd hch (hwithin e (hreq e he))
            · refine ih (k + 1) (Event.close k :: defers) ?_ e he hch
              intro d hdm
              rcases List.mem_cons.mp hdm with rfl | hdm
              · simp only [Event.chan, ne_eq, Option.some.injEq]
                omega
              · exact hd d hdm
    · rw [handleChannels_reject ParseRequest k defers p _ hp] at he
      simp only [List.mem_append, List.mem_cons, List.not_mem_nil, or_false] at he
      rcases he with (rfl | rfl) | he
      · simp [Event.chan] at hch
      · simp only [Event.chan, Option.some.injEq] at hch
        omega
      · exact ih (k + 1) defers hd e he hch

/-- When the channel loop returns, the deferred calls are the last events, and
no event before them closes the connection. -/
theorem handleChannels_returned (ParseRequest : Request → Except String AgentRequest)
    (cs : List NewChannel) : ∀ (k : Nat) (defers es : List Event),
    handleChannels ParseRequest k defers cs = (es, .returned) →
    ∃ body, es = body ++ defers ∧ Event.connClose ∉ body := by
  induction cs with
  | nil =>
    intro k defers es h
    simp only [handleChannels, Prod.mk.injEq, and_true] at h
    exact ⟨[], by simp [h], by simp⟩
  | cons c rest ih =>
    intro k defers es h
    have hwithin : ∀ l : List Event, (∀ x ∈ l, x.within k) → Event.connClose ∉ l := by
      intro l hl hmem
      rcases hl _ hmem with hx | ⟨t, hx⟩
      · simp [Event.chan] at hx
      · simp at hx
    by_cases hty : c.ChannelType = "session"
    · cases hacc : c.Accept with
      | error msg =>
        rw [handleChannels_acceptFailed ParseRequest k defers c rest msg hty hacc] at h
        simp only [Prod.mk.injEq, and_true] at h
        exact ⟨_, h.symm, by simp⟩
      | ok rs =>
        have hreq := handleRequests_within ParseRequest k rs
        cases hrs : handleRequests ParseRequest k rs with
        | mk rq fin =>
          rw [hrs] at hreq
          cases fin with
          | false =>
            rw [handleChannels_blocked ParseRequest k defers c rest rs rq hty hacc hrs] at h
            simp at h
          | true =>
            rw [handleChannels_served ParseRequest k defers c rest rs rq hty hacc hrs] at h
            simp only [Prod.mk.injEq] at h
            obtain ⟨h1, h2⟩ := h
            obtain ⟨body, hb, hnot⟩ := ih (k + 1) (Event.close k :: defers) _ (Prod.ext rfl h2)
            refine ⟨Event.accept k :: rq ++ (body ++ [Event.close k]), ?_, ?_⟩
            · subst h1
              simp [hb]
            · have := hwithin rq hreq
              simp [this, hnot]
    · rw [handleChannels_reject ParseRequest k defers c rest hty] at h
      simp only [Prod.mk.injEq] at h
      obtain ⟨h1, h2⟩ := h
      obtain ⟨body, hb, hnot⟩ := ih (k + 1) defers _ (Prod.ext rfl h2)
      refine ⟨[Event.printf ("rejecting unknown channel type: " ++ c.ChannelType ++ "\n"),
        Event.reject k .UnknownChannelType "unknown channel type"] ++ body, ?_, ?_⟩
      · subst h1
        simp [hb]
      · simp [hnot]

/-- C6: an incoming channel whose kind is not `session` is rejected with
`UnknownChannelType` and the message `unknown channel type`; the loop then
goes on with the next incoming channel, the deferred close of the connection
still pending.  In the whole run no other call concerns that channel: it is
not accepted, no request of it is read, parsed, answered or run, nothing is
written to it and it is not closed. -/
theorem non_session_rejected (ParseRequest : Request → Except String AgentRequest)
    (pre : List NewChannel) (c : NewChannel) (post : List NewChannel) (reqs : List Request)
    (hty : c.ChannelType ≠ "session") :
    (∀ (k : Nat) (defers : List Event),
      handleChannels ParseRequest k defers (c :: post) =
        ([Event.printf ("rejecting unknown channel type: " ++ c.ChannelType ++ "\n"),
          Event.reject k .UnknownChannelType "unknown channel type"]
          ++ (handleChannels ParseRequest (k + 1) defers post).1,
         (handleChannels ParseRequest (k + 1) defers post).2)) ∧
    (∀ e ∈ (handleConn ParseRequest (pre ++ c :: post) reqs).1,
      e.chan = some pre.length →
      e = Event.reject pre.length .UnknownChannelType "unknown channel type") := by
  refine ⟨fun k defers => handleChannels_reject ParseRequest k defers c post hty, ?_⟩
  intro e he hch
  have h := handleChannels_non_session ParseRequest c post hty pre 0 [Event.connClose]
    (by simp [Event.chan]) e (by simpa [handleConn] using he) (by simpa using hch)
  simpa using h

/-- Witness of C6: an `x11` channel followed by a session running `echo hello`. -/
theorem non_session_rejected_witness :
    handleConn sampleParse
        [{ ChannelType := "x11", Accept := .ok [execReq [1]] },
         { ChannelType := "session", Accept := .ok [execReq [1]] }] [] =
      ([Event.printf "rejecting unknown channel type: x11\n",
        Event.reject 0 .UnknownChannelType "unknown channel type"]
        ++ (handleChannels sampleParse 1 [Event.connClose]
              [{ ChannelType := "session", Accept := .ok [execReq [1]] }]).1,
       (handleChannels sampleParse 1 [Event.connClose]
              [{ ChannelType := "session", Accept := .ok [execReq [1]] }]).2) :=
  (non_session_rejected sampleParse [] { ChannelType := "x11", Accept := .ok [execReq [1]] }
    [{ ChannelType := "session", Accept := .ok [execReq [1]] }] [] (by decide)).1 0
    [Event.connClose]

/-- C7, evaluated on a session channel whose only request is rejected, followed
by a second session channel: the first channel is closed only when
`handleConn` returns, after the second channel has been accepted and served. -/
theorem channel_closed_at_return :
    handleConn sampleParse
        [{ ChannelType := "session", Accept := .ok [shellReq] },
         { ChannelType := "session", Accept := .ok [execReq [1]] }] [] =
      ([Event.accept 0,
        Event.printf "rejecting non-exec channel request (type=shell)\n",
        Event.reply 0 shellReq false none,
        Event.accept 1,
        Event.parseRequest 1 (execReq [1]), Event.reply 1 (execReq [1]) true none,
        Event.run 1 echoHello, Event.write 1 "hello\n",
        Event.sendRequest 1 "exit-status" false [0, 0, 0, 0], Event.close 1,
        Event.close 1, Event.close 0, Event.connClose], .returned) := by
  decide

/-- C9: in a run of `handleConn` that returns, by the end of the channel stream
or by a failed accept, the connection is closed exactly once and that close is
the last event of the run. -/
theorem conn_closed_once_last (ParseRequest : Request → Except String AgentRequest)
    (chans : List NewChannel) (reqs : List Request) (es : List Event)
    (h : handleConn ParseRequest chans reqs = (es, .returned)) :
    ∃ body, es = body ++ [Event.connClose] ∧ Event.connClose ∉ body ∧
      es.count Event.connClose = 1 := by
  obtain ⟨body, hb, hnot⟩ := handleChannels_returned ParseRequest chans 0 [Event.connClose] es h
  refine ⟨body, hb, hnot, ?_⟩
  rw [hb, List.count_append, List.count_eq_zero_of_not_mem hnot]
  simp

/-- Witness of C9: a run that ends on a failed accept after a served channel. -/
theorem conn_closed_once_last_witness :
    ∃ body,
      [Event.accept 0, Event.acceptFailed 1, Event.printf "failed to accept channel: refused\n",
        Event.close 0, Event.connClose] = body ++ [Event.connClose] ∧
      Event.connClose ∉ body ∧
      [Event.accept 0, Event.acceptFailed 1, Event.printf "failed to accept channel: refused\n",
        Event.close 0, Event.connClose].count Event.connClose = 1 :=
  conn_closed_once_last sampleParse
    [{ ChannelType := "session", Accept := .ok [] },
     { ChannelType := "session", Accept := .error "refused" }] [] _ (by decide)

theorem handleRequests_completes (ParseRequest : Request → Except String AgentRequest) (ch : Nat)
    (rs : List Request)
    (h : ∀ q ∈ rs, q.type = "exec" → ∀ r, ParseRequest q = .ok r →
      r.closes = true ∧ r.returns = true) :
    (handleRequests ParseRequest ch rs).2 = true := by
  induction rs with
  | nil => simp [handleRequests]
  | cons q rest ih =>
    have hrest := ih (fun x hx => h x (List.mem_cons_of_mem q hx))
    have hq := h q (List.mem_cons_self q rest)
    have hbody : (handleRequest ParseRequest ch q).2 = true := by
      by_cases htype : q.type = "exec"
      · cases hp : ParseRequest q with
        | error msg => simp [handleRequest, htype, hp]
        | ok r =>
          rw [handleRequest_exec ParseRequest ch q r htype hp]
          simp [hq htype r hp]
      · simp [handleRequest, htype]
    rw [handleRequests_cons ParseRequest ch q rest (handleRequest ParseRequest ch q).1
      (Prod.ext rfl hbody)]
    exact hrest

/-- The channel loop over passable channels `pre` followed by `rest`: the
passes for `pre`, then the loop over `rest` with the closes of `pre` deferred. -/
theorem handleChannels_append (ParseRequest : Request → Except String AgentRequest)
    (rest : List NewChannel) (pre : List NewChannel) : ∀ (k : Nat) (defers : List Event),
    (∀ c ∈ pre, Passable ParseRequest c) →
    handleChannels ParseRequest k defers (pre ++ rest) =
      (servedFrom ParseRequest k pre
        ++ (handleChannels ParseRequest (k + pre.length) (deferredCloses k pre ++ defers) rest).1,
       (handleChannels ParseRequest (k + pre.length) (deferredCloses k pre ++ defers) rest).2) := by
  induction pre with
  | nil => intro k defers _; simp [servedFrom, deferredCloses]
  | cons p ps ih =>
    intro k defers hpre
    have hps : ∀ c ∈ ps, Passable ParseRequest c := fun c hc => hpre c (List.mem_cons_of_mem p hc)
    have hp := hpre p (List.mem_cons_self p ps)
    have hlen : k + (p :: ps).length = k + 1 + ps.length := by
      simp only [List.length_cons]; omega
    rw [hlen]
    simp only [List.cons_append]
    by_cases hty : p.ChannelType = "session"
    · obtain ⟨rs, hacc, hruns⟩ := hp hty
      have hfin := handleRequests_completes ParseRequest k rs hruns
      rw [handleChannels_served ParseRequest k defers p _ rs (handleRequests ParseRequest k rs).1
        hty hacc (Prod.ext rfl hfin)]
      rw [ih (k + 1) (Event.close k :: defers) hps]
      simp [servedFrom, served, deferredCloses, hty, hacc]
    · rw [handleChannels_reject ParseRequest k defers p _ hty]
      rw [ih (k + 1) defers hps]
      simp [servedFrom, served, deferredCloses, hty]

/-- C8, evaluated on a session channel whose accept fails, followed by a second
session channel: the run ends at the failed accept, the connection is closed,
and the second channel is neither accepted nor rejected: no event concerns it. -/
theorem accept_failure_ends_run :
    handleConn sampleParse
        [{ ChannelType := "session", Accept := .error "refused" },
         { ChannelType := "session", Accept := .ok [execReq [1]] }] [] =
      ([Event.acceptFailed 0, Event.printf "failed to accept channel: refused\n",
        Event.connClose], .returned) ∧
    ∀ e ∈ (handleConn sampleParse
        [{ ChannelType := "session", Accept := .error "refused" },
         { ChannelType := "session", Accept := .ok [execReq [1]] }] []).1,
      e.chan ≠ some 1 := by
  decide

/-- C8 as amended: the channel loop handles the incoming channels in arrival
order, each one rejected (another kind) or accepted and served, and a
rejection does not end it: over channels `pre` that are all of another kind
or accepted (their runs completing), `handleConn` makes the passes for every
channel of `pre` in order, then runs the deferred closes and closes the
connection last.  A session channel whose accept fails ends the run: after
the passes for `pre`, the failed accept is logged, the deferred calls run, and
no channel after it is handled. -/
theorem channels_until_accept_failure (ParseRequest : Request → Except String AgentRequest)
    (pre : List NewChannel) (reqs : List Request)
    (hpre : ∀ c ∈ pre, Passable ParseRequest c) :
    handleConn ParseRequest pre reqs =
      (servedFrom ParseRequest 0 pre ++ deferredCloses 0 pre ++ [Event.connClose], .returned) ∧
    ∀ (c : NewChannel) (msg : String) (post : List NewChannel),
      c.ChannelType = "session" → c.Accept = .error msg →
      handleConn ParseRequest (pre ++ c :: post) reqs =
        (servedFrom ParseRequest 0 pre
          ++ [Event.acceptFailed pre.length,
              Event.printf ("failed to accept channel: " ++ msg ++ "\n")]
          ++ deferredCloses 0 pre ++ [Event.connClose], .returned) := by
  constructor
  · have h := handleChannels_append ParseRequest [] pre 0 [Event.connClose] hpre
    simp only [List.append_nil] at h
    simp [handleConn, h, handleChannels]
  · intro c msg post hty hacc
    have h := handleChannels_append ParseRequest (c :: post) pre 0 [Event.connClose] hpre
    simp only [handleConn, h]
    rw [handleChannels_acceptFailed ParseRequest _ _ c post msg hty hacc]
    simp

/-- Witness of C8 as amended: a rejected channel and a served session, then a
failed accept, then a channel that is not handled. -/
theorem channels_until_accept_failure_witness :
    handleConn sampleParse
        ([{ ChannelType := "x11", Accept := .ok [] },
          { ChannelType := "session", Accept := .ok [execReq [2]] }]
          ++ { ChannelType := "session", Accept := .error "refused" }
          :: [{ ChannelType := "session", Accept := .ok [execReq [1]] }]) [] =
      (servedFrom sampleParse 0
          [{ ChannelType := "x11", Accept := .ok [] },
           { ChannelType := "session", Accept := .ok [execReq [2]] }]
        ++ [Event.acceptFailed 2, Event.printf ("failed to accept channel: " ++ "refused" ++ "\n")]
        ++ deferredCloses 0
          [{ ChannelType := "x11", Accept := .ok [] },
           { ChannelType := "session", Accept := .ok [execReq [2]] }]
        ++ [Event.connClose], .returned) :=
  (channels_until_accept_failure sampleParse
    [{ ChannelType := "x11", Accept := .ok [] },
     { ChannelType := "session", Accept := .ok [execReq [2]] }] []
    (by
      intro c hc
      simp only [List.mem_cons, List.mem_singleton, List.not_mem_nil, or_false] at hc
      rcases hc with rfl | rfl
      · intro h; exact absurd h (by decide)
      · intro _
        refine ⟨[execReq [2]], rfl, ?_⟩
        intro q hq _ r hr
        simp only [List.mem_singleton] at hq
        subst hq
        have : r = failingRun := by
          have h2 : sampleParse (execReq [2]) = .ok failingRun := rfl
          rw [h2] at hr
          exact (Except.ok.inj hr).symm
        subst this
        exact ⟨rfl, rfl⟩)).2
    { ChannelType := "session", Accept := .error "refused" } "refused"
    [{ ChannelType := "session", Accept := .ok [execReq [1]] }] rfl rfl

end Agent

/-! # db/schema.go: theorems -/

theorem Exec_executed (db : DB) (st : Statement) :
    (db.Exec st).1.executed = db.executed ++ [st] := by
  cases st with
  | createTable name cols =>
    simp only [DB.Exec]
    split
    · split <;> rfl
    · split <;> rfl
  | insertSchemaInfo v =>
    simp only [DB.Exec]
    split <;> rfl

theorem foldl_Exec_executed (sts : List Statement) : ∀ db : DB,
    (sts.foldl (fun d st => (d.Exec st).1) db).executed = db.executed ++ sts := by
  induction sts with
  | nil => intro db; simp
  | cons st rest ih =>
    intro db
    simp only [List.foldl_cons]
    rw [ih, Exec_executed]
    simp

/-- A `CREATE TABLE` of a table other than `schema_info` leaves `schema_info`
as it is. -/
theorem Exec_createTable_schema_info (db : DB) (name : String)
    (cols : List (String × String)) (h : name ≠ "schema_info") :
    (db.Exec (.createTable name cols)).1.schema_info = db.schema_info := by
  simp only [DB.Exec, h, if_false]
  split <;> rfl

/-- After `v1schema`, `schema_info` exists and holds the rows it held before
followed by the row `1`. -/
theorem v1schema_schema_info (db : DB) :
    (db.v1schema).1.schema_info = some ((db.schema_info.getD []) ++ [some 1]) := by
  simp only [DB.v1schema, v1Statements, List.foldl_cons, List.foldl_nil]
  repeat rw [Exec_createTable_schema_info _ _ _ (by decide)]
  cases h : db.schema_info <;> simp [DB.Exec, h]

/-- The version read from a catalog depends on `schema_info` alone. -/
theorem schemaVersion_congr (db db' : DB) (h : db.schema_info = db'.schema_info) :
    db.schemaVersion = db'.schemaVersion := by
  simp [DB.schemaVersion, DB.Query, h]

theorem schemaVersion_catalogAt_one : (catalogAt 1).schemaVersion = .ok 1 := by
  rfl

/-- C10, evaluated on a catalog whose `schema_info` holds the version 0: the
stored version is 0, `Setup` runs the bootstrap and returns no error, and the
next `schemaVersion` is still 0, the row `1` being stored after the row `0`. -/
theorem stored_zero_stays_zero :
    (catalogAt 0).schemaVersion = .ok 0 ∧
    ((catalogAt 0).Setup).2 = none ∧
    ((catalogAt 0).Setup).1.schema_info = some [some 0, some 1] ∧
    ((catalogAt 0).Setup).1.schemaVersion = .ok 0 ∧
    ((catalogAt 0).Setup).1.schemaVersion ≠ .ok 1 := by
  have h : ((catalogAt 0).Setup).1.schemaVersion = .ok 0 := rfl
  refine ⟨rfl, rfl, rfl, h, ?_⟩
  rw [h]
  simp

/-- C10 as amended: `Setup` decides on the stored schema version `v`.  When
`v = 0` it executes the statements of the v1 schema and returns no error; when
moreover `schema_info` was absent or held no row, the next `schemaVersion` is 1.
When `v = 1` it returns no error, executes nothing and leaves the catalog as it
is.  When `v > 1` it returns the error saying the schema is newer than this
version, executes nothing and leaves the catalog as it is. -/
theorem setup_by_version (db : DB) :
    (db.schemaVersion = .ok 0 →
      (db.Setup).2 = none ∧ (db.Setup).1.executed = db.executed ++ v1Statements) ∧
    ((db.schema_info = none ∨ db.schema_info = some []) →
      db.schemaVersion = .ok 0 ∧ (db.Setup).2 = none ∧ (db.Setup).1.schemaVersion = .ok 1) ∧
    (db.schemaVersion = .ok 1 → db.Setup = (db, none)) ∧
    (∀ v : Nat, 1 < v → db.schemaVersion = .ok v →
      db.Setup =
        (db, some ("Schema version " ++ toString v ++ " is newer than this version of SHIELD")))
    := by
  have hzero : db.schemaVersion = .ok 0 → db.Setup = ((db.v1schema).1, none) := by
    intro h
    simp [DB.Setup, h, DB.v1schema]
  refine ⟨?_, ?_, ?_, ?_⟩
  · intro h
    rw [hzero h]
    exact ⟨rfl, foldl_Exec_executed v1Statements db⟩
  · intro h
    have hv : db.schemaVersion = .ok 0 := by
      rcases h with h | h <;> simp [DB.schemaVersion, DB.Query, h]
    refine ⟨hv, ?_, ?_⟩
    · rw [hzero hv]
    · rw [hzero hv]
      have hrows : (db.v1schema).1.schema_info = some [some 1] := by
        rw [v1schema_schema_info]
        rcases h with h | h <;> simp [h]
      rw [schemaVersion_congr _ (catalogAt 1) (by rw [hrows]; rfl)]
      exact schemaVersion_catalogAt_one
  · intro h
    simp [DB.Setup, h]
  · intro v hv h
    have h0 : v ≠ 0 := by omega
    simp [DB.Setup, h, h0, hv]

/-- Witness of C10 as amended: the empty catalog is bootstrapped to version 1,
and a catalog at version 2 is refused and left as it is. -/
theorem setup_by_version_witness :
    (emptyCatalog.schemaVersion = .ok 0 ∧ (emptyCatalog.Setup).2 = none ∧
      (emptyCatalog.Setup).1.schemaVersion = .ok 1) ∧
    (catalogAt 2).Setup =
      (catalogAt 2,
        some ("Schema version " ++ toString 2 ++ " is newer than this version of SHIELD")) :=
  ⟨(setup_by_version emptyCatalog).2.1 (Or.inl rfl),
   (setup_by_version (catalogAt 2)).2.2.2 2 (by decide) rfl⟩

end Shield
